import Mathlib

/-!
Verification of the ETL transform-and-load pipeline (`src/etl/src/transform.py`)
and the standalone missing-number puzzle (`src/etl/src/missing_number.py`),
via a shallow embedding of the Python source into Lean.

Modelling conventions:
* A pandas-null / Python-None cell is `Option.none`; fixed-point DECIMAL(16,2)
  amounts are represented exactly as an integer number of cents (`Int`);
  timestamps are opaque strings (the pipeline only tests them for nullness
  and passes them through).
* Python `decimal.Decimal` values reachable from `Decimal(str(x))` are the
  inductive `Dec`: NaN, signed infinity, or a finite value `m / 10^e`.
* A function that can raise is modelled in the `Except` monad; `.error`
  is an uncaught Python exception.
-/

namespace ETL

/-- A `decimal.Decimal` as produced by the constructor: quiet/signaling NaN,
signed infinity, or the finite value `m / 10 ^ e`. -/
inductive Dec where
  | nan
  | inf (neg : Bool)
  | fin (m : Int) (e : Nat)
deriving DecidableEq

/-- Classification of the raw cell handed to `normalize_amount`, following the
branch structure of the source: `pd.isna(x)`, `x == ""`, `Decimal(str(x))`
raising `InvalidOperation`/`ValueError`, or a successfully parsed decimal. -/
inductive AmountInput where
  | absent                  -- pd.isna(x) is true (None / NaN cell / NaT)
  | empty                   -- x == ""
  | unparseable             -- Decimal(str(x)) raises
  | value (d : Dec)         -- Decimal(str(x)) = d
deriving DecidableEq

/-- `d.quantize(Decimal("0.01"), rounding=ROUND_HALF_UP)` for the finite
decimal `m / 10 ^ e`, returned as a number of cents.  Python's
`ROUND_HALF_UP` rounds to nearest with ties going away from zero. -/
def quantize2 (m : Int) (e : Nat) : Int :=
  if e ≤ 2 then
    m * 10 ^ (2 - e)
  else
    let d := 10 ^ (e - 2)
    let q := m.natAbs / d
    let r := m.natAbs % d
    let q2 := if d ≤ 2 * r then q + 1 else q
    if m < 0 then -(q2 : Int) else (q2 : Int)

/-- Embedding of `normalize_amount` (transform.py lines 85-103).
`.ok none` is a returned Python `None`, `.ok (some c)` a returned 2-decimal
`Decimal` worth `c` cents, `.error ()` an exception escaping the function.

* null / empty input returns `None`;
* an unparseable string returns `None` (the `except` clause);
* a parsed NaN reaches `d.copy_abs() >= DECIMAL16_2_ABS_MAX` outside the
  `try`, and an ordering comparison on a NaN `Decimal` raises
  `InvalidOperation`, which propagates;
* an infinity fails the range check (`|d| >= 1e14`) and returns `None`;
* a finite value at or above `10^14` in magnitude returns `None`,
  otherwise the value is quantized to 2 decimals with `ROUND_HALF_UP`. -/
def normalize_amount : AmountInput → Except Unit (Option Int)
  | .absent => .ok none
  | .empty => .ok none
  | .unparseable => .ok none
  | .value .nan => .error ()
  | .value (.inf _) => .ok none
  | .value (.fin m e) =>
      if 10 ^ (14 + e) ≤ m.natAbs then .ok none
      else .ok (some (quantize2 m e))

/-- One row of the CSV after pandas parsing (transform.py lines 163-175):
string columns are `Option String` (`none` is NA), the raw `amount` cell is
pre-classified as an `AmountInput`, dates are opaque strings with `none`
for NaT. -/
structure Row where
  id : Option String
  name : Option String
  company_id : Option String
  amount : AmountInput
  status : Option String
  created_at : Option String
  paid_at : Option String
deriving DecidableEq

/-- A row of the derived `companies` record set (id, company_name). -/
structure Company where
  id : Option String
  company_name : Option String
deriving DecidableEq

/-- A row of the derived `charges` record set. -/
structure Charge where
  id : Option String
  company_id : Option String
  amount : Option Int
  status : Option String
  created_at : Option String
  updated_at : Option String
deriving DecidableEq

/-- `df.dropna(subset=["id", "company_id", "created_at"])`
(transform.py line 188). -/
def survivors (rows : List Row) : List Row :=
  rows.filter fun r => r.id.isSome && r.company_id.isSome && r.created_at.isSome

/-- `df["amount"].apply(normalize_amount)` (line 195): pair every surviving
row with its normalized amount; the first exception aborts the whole run. -/
def withAmounts : List Row → Except Unit (List (Row × Option Int))
  | [] => .ok []
  | r :: rs =>
      match normalize_amount r.amount with
      | .error e => .error e
      | .ok a =>
          match withAmounts rs with
          | .error e => .error e
          | .ok ps => .ok ((r, a) :: ps)

/-- `df[["company_id", "name"]].dropna(subset=["company_id"])`
(lines 206-208): the projection feeding company deduplication. -/
def companyPairs (surv : List Row) : List (Option String × Option String) :=
  (surv.map fun r => (r.company_id, r.name)).filter fun p => p.1.isSome

/-- First-occurrence deduplication by key with an accumulator of keys already
seen — the semantics of `drop_duplicates(subset=[...])` (keep="first"). -/
def dedupScan {α κ : Type} (key : α → κ) [DecidableEq κ] (seen : List κ) :
    List α → List α
  | [] => []
  | x :: xs =>
      if key x ∈ seen then dedupScan key seen xs
      else x :: dedupScan key (key x :: seen) xs

/-- `drop_duplicates(subset=[key])`, keeping the first occurrence. -/
def dedupBy {α κ : Type} (key : α → κ) [DecidableEq κ] (l : List α) : List α :=
  dedupScan key [] l

/-- Step 6 of `main` (lines 206-212): project, drop null keys, deduplicate by
`company_id` keeping the first occurrence, rename to `(id, company_name)`. -/
def deriveCompanies (surv : List Row) : List Company :=
  (dedupBy Prod.fst (companyPairs surv)).map fun p =>
    { id := p.1, company_name := p.2 }

/-- One charge record from a surviving row and its normalized amount
(lines 215-222): `status` is `fillna("unknown")`, `updated_at` is `paid_at`
(`.where(notna, None)` is the identity on an optional value). -/
def mkCharge (p : Row × Option Int) : Charge :=
  { id := p.1.id
    company_id := p.1.company_id
    amount := p.2
    status := (fun s => match s with | some v => some v | none => some "unknown") p.1.status
    created_at := p.1.created_at
    updated_at := p.1.paid_at }

/-- The final `.dropna(subset=["id", "company_id", "status", "created_at"])`
predicate on a built charge row (line 223). -/
def chargeKeep (g : Charge) : Bool :=
  g.id.isSome && g.company_id.isSome && g.status.isSome && g.created_at.isSome

/-- Step 7 of `main`: build charge records and apply the defensive re-check. -/
def deriveCharges (ps : List (Row × Option Int)) : List Charge :=
  (ps.map mkCharge).filter chargeKeep

/-- Steps 5-7 of `main` (lines 186-223): filter on mandatory keys, normalize
amounts (an exception aborts the run), derive both record sets. -/
def transformPipeline (rows : List Row) :
    Except Unit (List Company × List Charge) :=
  match withAmounts (survivors rows) with
  | .error e => .error e
  | .ok ps => .ok (deriveCompanies (survivors rows), deriveCharges ps)

/-- The `--if-exists` CLI choice (lines 146-151). -/
inductive Mode where
  | append
  | replace
deriving DecidableEq

/-- Row contents of the two warehouse tables. -/
structure DB where
  companies : List Company
  charges : List Charge
deriving DecidableEq

/-- The empty warehouse (freshly created tables). -/
def emptyDB : DB := { companies := [], charges := [] }

/-- `INSERT ... ON CONFLICT (id) DO NOTHING` executed record by record:
an incoming record whose key already exists in the table (including a key
inserted earlier in the same statement) is silently skipped. -/
def insertIgnore {α κ : Type} (key : α → κ) [DecidableEq κ]
    (tbl : List α) : List α → List α
  | [] => tbl
  | r :: rs =>
      insertIgnore key (if key r ∈ tbl.map key then tbl else tbl ++ [r]) rs

/-- Embedding of `load_data` (lines 105-139): in `replace` mode both tables
are truncated first; companies are inserted before charges, each with
conflict-ignore semantics. -/
def load_data (db : DB) (mode : Mode) (cmps : List Company)
    (chgs : List Charge) : DB :=
  let db0 : DB :=
    match mode with
    | .replace => { companies := [], charges := [] }
    | .append => db
  { companies := insertIgnore Company.id db0.companies cmps
    charges := insertIgnore Charge.id db0.charges chgs }

/-- The seven mandatory CSV columns (transform.py lines 11-13). -/
def MUST_HAVE_COLUMNS : List String :=
  ["id", "name", "company_id", "amount", "status", "created_at", "paid_at"]

/-- A parsed CSV: its header and its rows. -/
structure CSV where
  columns : List String
  rows : List Row
deriving DecidableEq

/-- The observable outcome of one run of `main`.  `crashed` is an uncaught
exception: either the `ValueError` that `pd.read_csv` raises when a column
named in `parse_dates` is absent from the header (only `FileNotFoundError`
is caught), or the `InvalidOperation` escaping `normalize_amount`. -/
inductive MainOutcome where
  | missingFile                        -- FileNotFoundError on read_csv
  | missingColumns (cols : List String) -- failed column sanity check
  | crashed                            -- uncaught exception, traceback, exit 1
  | success
deriving DecidableEq

/-- The process exit code for each outcome (`sys.exit(1)` on the two checked
failures; an uncaught Python exception also terminates with status 1). -/
def exitCode : MainOutcome → Nat
  | .missingFile => 1
  | .missingColumns _ => 1
  | .crashed => 1
  | .success => 0

/-- Embedding of `main` (lines 141-232) from the point the input is read:
`none` is a missing input file.  `pd.read_csv` is called with
`parse_dates=["created_at", "paid_at"]` (lines 164-175), and pandas raises
`ValueError` when a column named in `parse_dates` is absent from the
header; only `FileNotFoundError` is caught, so that run crashes before the
line-181 column sanity check.  Otherwise the column check runs before any
row is written, then the pipeline derives the record sets and `load_data`
applies them.  The returned `DB` is the warehouse row state after the run
(schema provisioning creates no rows). -/
def mainModel (input : Option CSV) (db : DB) (mode : Mode) :
    MainOutcome × DB :=
  match input with
  | none => (.missingFile, db)
  | some csv =>
      if "created_at" ∉ csv.columns ∨ "paid_at" ∉ csv.columns then
        (.crashed, db)
      else
        match MUST_HAVE_COLUMNS.filter (fun c => decide (c ∉ csv.columns)) with
        | [] =>
            match transformPipeline csv.rows with
            | .error _ => (.crashed, db)
            | .ok (cs, gs) => (.success, load_data db mode cs gs)
        | c :: cs => (.missingColumns (c :: cs), db)

end ETL

namespace MissingNumber

/-- A dynamically typed Python argument: an `int`, or any non-`int` value
(the branch `not isinstance(n, int)` of `_validate`). -/
inductive PyVal where
  | int (n : Int)
  | other
deriving DecidableEq

/-- State of a `NumberSet100` object (missing_number.py lines 17-19). -/
structure NumberSet100 where
  N : Nat
  extracted : Option Nat
deriving DecidableEq

/-- `NumberSet100.__init__`. -/
def NumberSet100.init : NumberSet100 := { N := 100, extracted := none }

/-- `extract` with `_validate` inlined (lines 21-29): a non-`int` or an
out-of-range value raises `ValueError`; otherwise the value is stored.
A stored value is in `1..N`, so it is kept as a `Nat`. -/
def NumberSet100.extract (s : NumberSet100) (v : PyVal) :
    Except String NumberSet100 :=
  match v with
  | .other => .error "El valor debe ser un entero."
  | .int n =>
      if n < 1 ∨ (s.N : Int) < n then
        .error "El número debe estar entre 1 y 100."
      else
        .ok { s with extracted := some n.toNat }

/-- `find_missing` (lines 31-37): raises before any extraction, otherwise
returns `N ^^^ (N ^^^ extracted)` (the source exploits
`1 ^^^ 2 ^^^ ... ^^^ 100 = 100 = N`). -/
def NumberSet100.find_missing (s : NumberSet100) : Except String Nat :=
  match s.extracted with
  | none => .error "Primero debes extraer un número con extract(n)."
  | some n => .ok (s.N ^^^ (s.N ^^^ n))

end MissingNumber

namespace ETL

/-- The 3-row end-to-end scenario of the spec: two rows share
`company_id = "C1"`, one has `"C2"`, and the second row's amount is the
text `"99999999999999.999"`, i.e. the finite decimal
`99999999999999999 / 10 ^ 3`. -/
def scenarioRows : List Row :=
  [ { id := some "1", name := some "Acme", company_id := some "C1",
      amount := .value (.fin 10050 2), status := some "paid",
      created_at := some "2019-01-01", paid_at := some "2019-01-05" },
    { id := some "2", name := some "Acme", company_id := some "C1",
      amount := .value (.fin 99999999999999999 3), status := some "paid",
      created_at := some "2019-01-02", paid_at := none },
    { id := some "3", name := some "Globex", company_id := some "C2",
      amount := .value (.fin 20000 2), status := some "voided",
      created_at := some "2019-01-03", paid_at := none } ]

/-- The scenario batch as a CSV with all mandatory columns present. -/
def scenarioCSV : CSV := { columns := MUST_HAVE_COLUMNS, rows := scenarioRows }

/-- One full run of the driver on the scenario batch against an empty
warehouse in append mode. -/
def mainScenario : MainOutcome × DB := mainModel (some scenarioCSV) emptyDB .append

/-- A minimal well-formed input row used to instantiate hypotheses of the
pipeline theorems on a concrete batch. -/
def wRow : Row :=
  { id := some "a", name := some "n", company_id := some "K",
    amount := .absent, status := none, created_at := some "t", paid_at := none }

/-- The company record the pipeline derives from `wRow`. -/
def wCompany : Company := { id := some "K", company_name := some "n" }

/-- The charge record the pipeline derives from `wRow`. -/
def wCharge : Charge :=
  { id := some "a", company_id := some "K", amount := none,
    status := some "unknown", created_at := some "t", updated_at := none }

/-- A concrete CSV whose header lacks the mandatory `status` column. -/
def wBadCSV : CSV :=
  { columns := ["id", "name", "company_id", "amount", "created_at", "paid_at"],
    rows := [] }

/-- A concrete CSV whose header lacks the mandatory `created_at` column — a
column that is also named in `parse_dates`. -/
def wDateCSV : CSV :=
  { columns := ["id", "name", "company_id", "amount", "status", "paid_at"],
    rows := [] }

end ETL

namespace ETL

/-! Helper lemmas about `insertIgnore` (conflict-ignoring insertion). -/

theorem insertIgnore_key_mem_mono {α κ : Type} (key : α → κ) [DecidableEq κ]
    (recs : List α) : ∀ (tbl : List α) (k : κ), k ∈ tbl.map key →
    k ∈ (insertIgnore key tbl recs).map key := by
  induction recs with
  | nil => intro tbl k h; exact h
  | cons r rs ih =>
      intro tbl k h
      simp only [insertIgnore]
      apply ih
      by_cases hc : key r ∈ tbl.map key
      · rw [if_pos hc]; exact h
      · rw [if_neg hc]
        simp only [List.map_append, List.map_cons, List.map_nil,
          List.mem_append, List.mem_singleton]
        exact Or.inl h

theorem insertIgnore_key_mem {α κ : Type} (key : α → κ) [DecidableEq κ]
    (recs : List α) : ∀ (tbl : List α) (r : α), r ∈ recs →
    key r ∈ (insertIgnore key tbl recs).map key := by
  induction recs with
  | nil => intro tbl r h; cases h
  | cons a as ih =>
      intro tbl r h
      simp only [insertIgnore]
      rcases List.mem_cons.mp h with h1 | h2
      · subst h1
        apply insertIgnore_key_mem_mono
        by_cases hc : key r ∈ tbl.map key
        · rw [if_pos hc]; exact hc
        · rw [if_neg hc]
          simp
      · exact ih _ r h2

theorem insertIgnore_all_present {α κ : Type} (key : α → κ) [DecidableEq κ]
    (recs : List α) : ∀ (tbl : List α),
    (∀ r ∈ recs, key r ∈ tbl.map key) → insertIgnore key tbl recs = tbl := by
  induction recs with
  | nil => intro tbl _; rfl
  | cons a as ih =>
      intro tbl h
      simp only [insertIgnore]
      rw [if_pos (h a (List.mem_cons_self a as))]
      exact ih tbl fun r hr => h r (List.mem_cons_of_mem a hr)

theorem insertIgnore_idem {α κ : Type} (key : α → κ) [DecidableEq κ]
    (tbl recs : List α) :
    insertIgnore key (insertIgnore key tbl recs) recs =
      insertIgnore key tbl recs :=
  insertIgnore_all_present key recs _ fun r hr =>
    insertIgnore_key_mem key recs tbl r hr

/-! Helper lemmas about `dedupScan` / `dedupBy` (first-occurrence dedup). -/

theorem dedupScan_key_not_seen {α κ : Type} (key : α → κ) [DecidableEq κ] :
    ∀ (l : List α) (seen : List κ) (x : α),
    x ∈ dedupScan key seen l → key x ∉ seen := by
  intro l
  induction l with
  | nil => intro seen x h; simp [dedupScan] at h
  | cons c cs ih =>
      intro seen x h
      simp only [dedupScan] at h
      by_cases hc : key c ∈ seen
      · rw [if_pos hc] at h
        exact ih seen x h
      · rw [if_neg hc] at h
        rcases List.mem_cons.mp h with h1 | h2
        · subst h1; exact hc
        · intro hs
          exact ih _ x h2 (List.mem_cons_of_mem _ hs)

theorem dedupScan_mem_keys {α κ : Type} (key : α → κ) [DecidableEq κ] :
    ∀ (l : List α) (seen : List κ) (k : κ), k ∈ l.map key → k ∉ seen →
    k ∈ (dedupScan key seen l).map key := by
  intro l
  induction l with
  | nil => intro seen k h _; simp at h
  | cons c cs ih =>
      intro seen k h hk
      simp only [List.map_cons, List.mem_cons] at h
      simp only [dedupScan]
      by_cases hc : key c ∈ seen
      · rw [if_pos hc]
        rcases h with h1 | h2
        · subst h1; exact absurd hc hk
        · exact ih seen k h2 hk
      · rw [if_neg hc]
        by_cases hkc : k = key c
        · simp [hkc]
        · rcases h with h1 | h2
          · exact absurd h1 hkc
          · simp only [List.map_cons, List.mem_cons]
            exact Or.inr (ih _ k h2 (by simp [hkc, hk]))

theorem dedupScan_keys_nodup {α κ : Type} (key : α → κ) [DecidableEq κ] :
    ∀ (l : List α) (seen : List κ), ((dedupScan key seen l).map key).Nodup := by
  intro l
  induction l with
  | nil => intro seen; simp [dedupScan]
  | cons c cs ih =>
      intro seen
      simp only [dedupScan]
      by_cases hc : key c ∈ seen
      · rw [if_pos hc]; exact ih seen
      · rw [if_neg hc]
        simp only [List.map_cons, List.nodup_cons]
        refine ⟨?_, ih _⟩
        intro hmem
        rcases List.mem_map.mp hmem with ⟨y, hy, hky⟩
        exact dedupScan_key_not_seen key cs (key c :: seen) y hy
          (by rw [hky]; exact List.mem_cons_self _ _)

theorem dedupScan_find {α κ : Type} (key : α → κ) [DecidableEq κ] :
    ∀ (l : List α) (seen : List κ) (x : α), x ∈ dedupScan key seen l →
    l.find? (fun y => decide (key y = key x)) = some x := by
  intro l
  induction l with
  | nil => intro seen x h; simp [dedupScan] at h
  | cons c cs ih =>
      intro seen x h
      simp only [dedupScan] at h
      by_cases hc : key c ∈ seen
      · rw [if_pos hc] at h
        have hx : key x ∉ seen := dedupScan_key_not_seen key cs seen x h
        have hne : ¬ key c = key x := fun he => hx (he ▸ hc)
        rw [List.find?_cons_of_neg _ (by simpa using hne)]
        exact ih seen x h
      · rw [if_neg hc] at h
        rcases List.mem_cons.mp h with h1 | h2
        · subst h1
          exact List.find?_cons_of_pos _ (by simp)
        · have hx : key x ∉ key c :: seen :=
            dedupScan_key_not_seen key cs _ x h2
          have hne : ¬ key c = key x := by
            intro he
            exact hx (he ▸ List.mem_cons_self _ _)
          rw [List.find?_cons_of_neg _ (by simpa using hne)]
          exact ih _ x h2

end ETL

namespace ETL

/-! Helper lemmas about the derivation pipeline. -/

theorem withAmounts_ok_fst :
    ∀ (rows : List Row) (ps : List (Row × Option Int)),
    withAmounts rows = .ok ps → ps.map Prod.fst = rows := by
  intro rows
  induction rows with
  | nil =>
      intro ps h
      simp only [withAmounts] at h
      injection h with h
      subst h
      rfl
  | cons r rs ih =>
      intro ps h
      simp only [withAmounts] at h
      cases hn : normalize_amount r.amount with
      | error e => rw [hn] at h; cases h
      | ok a =>
          rw [hn] at h
          cases hw : withAmounts rs with
          | error e => rw [hw] at h; cases h
          | ok qs =>
              rw [hw] at h
              injection h with h
              subst h
              simp [ih qs hw]

theorem mkCharge_status_isSome (p : Row × Option Int) :
    (mkCharge p).status.isSome := by
  cases h : p.1.status <;> simp [mkCharge, h]

theorem chargeKeep_of_surviving (rows : List Row) (r : Row) (a : Option Int)
    (hr : r ∈ survivors rows) : chargeKeep (mkCharge (r, a)) = true := by
  rw [survivors] at hr
  have h := (List.mem_filter.mp hr).2
  simp only [Bool.and_eq_true] at h
  have hs := mkCharge_status_isSome (r, a)
  simp only [chargeKeep, mkCharge, Bool.and_eq_true]
  exact ⟨⟨⟨h.1.1, h.1.2⟩, by simpa [mkCharge] using hs⟩, h.2⟩

theorem transformPipeline_ok (rows : List Row) (cs : List Company)
    (gs : List Charge) (h : transformPipeline rows = .ok (cs, gs)) :
    cs = deriveCompanies (survivors rows) ∧
    ∃ ps, withAmounts (survivors rows) = .ok ps ∧
      ps.map Prod.fst = survivors rows ∧ gs = deriveCharges ps := by
  simp only [transformPipeline] at h
  cases hw : withAmounts (survivors rows) with
  | error e => rw [hw] at h; cases h
  | ok ps =>
      rw [hw] at h
      injection h with h
      rw [Prod.mk.injEq] at h
      exact ⟨h.1.symm, ps, rfl, withAmounts_ok_fst _ ps hw, h.2.symm⟩

end ETL

namespace ETL

/-- Claim C1.  The claim asserts that every input that is absent, empty, not
parseable as a decimal number, or of magnitude at or above `10^14` yields
Absent, and every other input yields the value rounded to 2 decimals with
round-half-away-from-zero.  The rounding examples hold
(`"12.345"` gives `12.35`, `"12.344"` gives `12.34`, signs are preserved,
magnitude `10^14` gives Absent), but a cell whose text parses to a decimal
NaN — which is not a decimal number — makes the function raise
`InvalidOperation` instead of returning Absent, because the range comparison
sits outside the `try` block. -/
theorem claim_C1_normalize_rounding :
    normalize_amount (.value (.fin 12345 3)) = .ok (some 1235) ∧
    normalize_amount (.value (.fin 12344 3)) = .ok (some 1234) ∧
    normalize_amount (.value (.fin (-12345) 3)) = .ok (some (-1235)) ∧
    normalize_amount (.value (.fin 100000000000000 0)) = .ok none ∧
    normalize_amount .absent = .ok none ∧
    normalize_amount (.value .nan) = .error () :=
  ⟨rfl, rfl, rfl, rfl, rfl, rfl⟩

/-- Claim C2.  The claim asserts `normalize_amount` never raises.  It does
return a value on absent, empty, unparseable and infinite inputs, but on a
cell parsing to a decimal NaN (e.g. the text "NAN", which pandas does not
treat as NA) the ordering comparison `d.copy_abs() >= DECIMAL16_2_ABS_MAX`
raises `InvalidOperation` outside the `try`, so an exception escapes. -/
theorem claim_C2_normalize_never_raises :
    normalize_amount .absent = .ok none ∧
    normalize_amount .empty = .ok none ∧
    normalize_amount .unparseable = .ok none ∧
    normalize_amount (.value (.inf false)) = .ok none ∧
    normalize_amount (.value (.inf true)) = .ok none ∧
    normalize_amount (.value .nan) ≠ .ok none ∧
    ¬ (∃ v, normalize_amount (.value .nan) = .ok v) :=
  ⟨rfl, rfl, rfl, rfl, rfl, fun h => Except.noConfusion h,
    by rintro ⟨v, hv⟩; exact Except.noConfusion hv⟩

/-- Claim C3.  On the 3-row scenario batch the run succeeds, the Companies
record set has exactly 2 rows (`C1`, `C2`) and the Charges record set has
3 rows — but the charge derived from the row with amount
`"99999999999999.999"` does NOT have an Absent amount: the range check
passes (`99999999999999.999 < 10^14`) and quantization rounds the value up
to `100000000000000.00` (10^16 cents), which overflows DECIMAL(16,2). -/
theorem claim_C3_scenario :
    mainScenario.1 = .success ∧
    mainScenario.2.companies.length = 2 ∧
    mainScenario.2.charges.length = 3 ∧
    mainScenario.2.companies.map Company.id = [some "C1", some "C2"] ∧
    mainScenario.2.charges.map Charge.amount =
      [some 10050, some 10000000000000000, some 20000] :=
  ⟨rfl, rfl, rfl, rfl, rfl⟩

/-- Claim C4.  Append-mode loading is idempotent over any prior warehouse
state: loading the same pair of record sets twice leaves exactly the table
contents of loading it once (conflicting keys are ignored, existing rows
are never overwritten). -/
theorem claim_C4_append_idempotent (db : DB) (cs : List Company)
    (gs : List Charge) :
    load_data (load_data db .append cs gs) .append cs gs =
      load_data db .append cs gs := by
  simp only [load_data]
  rw [DB.mk.injEq]
  exact ⟨insertIgnore_idem Company.id db.companies cs,
    insertIgnore_idem Charge.id db.charges gs⟩

/-- Claim C5.  Replace-mode loading is idempotent and its result does not
depend on the prior warehouse state. -/
theorem claim_C5_replace_idempotent (db db2 : DB) (cs : List Company)
    (gs : List Charge) :
    load_data (load_data db .replace cs gs) .replace cs gs =
      load_data db .replace cs gs ∧
    load_data db .replace cs gs = load_data db2 .replace cs gs := by
  constructor <;> rfl

end ETL

namespace ETL

/-- Claim C6.  Referential integrity of derivation: whenever the pipeline
succeeds, the `company_id` of every derived charge appears among the ids of
the derived companies, so after a successful load (companies inserted
first) every `charges.company_id` exists as a `companies.id`. -/
theorem claim_C6_referential_integrity (rows : List Row) (cs : List Company)
    (gs : List Charge) (h : transformPipeline rows = .ok (cs, gs))
    (g : Charge) (hg : g ∈ gs) : g.company_id ∈ cs.map Company.id := by
  obtain ⟨hcs, ps, hw, hfst, hgs⟩ := transformPipeline_ok rows cs gs h
  subst hcs hgs
  simp only [deriveCharges] at hg
  have hg1 := (List.mem_filter.mp hg).1
  rcases List.mem_map.mp hg1 with ⟨p, hp, rfl⟩
  have hr : p.1 ∈ survivors rows := by
    rw [← hfst]
    exact List.mem_map.mpr ⟨p, hp, rfl⟩
  have hsome : p.1.company_id.isSome := by
    rw [survivors] at hr
    have := (List.mem_filter.mp hr).2
    simp only [Bool.and_eq_true] at this
    exact this.1.2
  have hpair : (p.1.company_id, p.1.name) ∈ companyPairs (survivors rows) := by
    rw [companyPairs]
    exact List.mem_filter.mpr ⟨List.mem_map.mpr ⟨p.1, hr, rfl⟩, hsome⟩
  have hkey : p.1.company_id ∈
      (dedupBy Prod.fst (companyPairs (survivors rows))).map Prod.fst := by
    rw [dedupBy]
    exact dedupScan_mem_keys Prod.fst _ [] p.1.company_id
      (List.mem_map.mpr ⟨_, hpair, rfl⟩) (by simp)
  rcases List.mem_map.mp hkey with ⟨q, hq, hkq⟩
  simp only [deriveCompanies, List.map_map]
  exact List.mem_map.mpr ⟨q, hq, hkq⟩

/-- Claim C7.  Company deduplication keeps the first occurrence: the derived
Companies record set has pairwise distinct ids, and each derived company is
exactly the earliest projected `(company_id, name)` pair with its id — so
for an id occurring in several surviving rows, the name comes from the
first such row and later duplicates are ignored. -/
theorem claim_C7_company_dedup_first_wins (rows : List Row)
    (cs : List Company) (gs : List Charge)
    (h : transformPipeline rows = .ok (cs, gs)) (c : Company) (hc : c ∈ cs) :
    (cs.map Company.id).Nodup ∧
    (companyPairs (survivors rows)).find? (fun p => decide (p.1 = c.id)) =
      some (c.id, c.company_name) := by
  obtain ⟨hcs, _, _, _, _⟩ := transformPipeline_ok rows cs gs h
  subst hcs
  constructor
  · have := dedupScan_keys_nodup Prod.fst (companyPairs (survivors rows)) []
    simpa [deriveCompanies, dedupBy, List.map_map] using this
  · simp only [deriveCompanies, dedupBy] at hc
    rcases List.mem_map.mp hc with ⟨p, hp, rfl⟩
    have := dedupScan_find Prod.fst (companyPairs (survivors rows)) [] p hp
    simpa using this

/-- Claim C9.  The defensive re-check in charge derivation is vacuous:
whenever the pipeline succeeds, the derived Charges record set has exactly
one row per surviving input row (same ids, in order, hence the same count) —
the final drop on `id`, `company_id`, `status`, `created_at` removes
nothing, because those keys survived the initial drop and `status` was
defaulted to "unknown". -/
theorem claim_C9_defensive_recheck_vacuous (rows : List Row)
    (cs : List Company) (gs : List Charge)
    (h : transformPipeline rows = .ok (cs, gs)) :
    gs.map Charge.id = (survivors rows).map Row.id ∧
    gs.length = (survivors rows).length := by
  obtain ⟨_, ps, hw, hfst, hgs⟩ := transformPipeline_ok rows cs gs h
  subst hgs
  have hfilter : (ps.map mkCharge).filter chargeKeep = ps.map mkCharge := by
    rw [List.filter_eq_self]
    intro g hg
    rcases List.mem_map.mp hg with ⟨p, hp, rfl⟩
    have hr : p.1 ∈ survivors rows := by
      rw [← hfst]
      exact List.mem_map.mpr ⟨p, hp, rfl⟩
    exact chargeKeep_of_surviving rows p.1 p.2 hr
  constructor
  · rw [deriveCharges, hfilter, List.map_map, ← hfst, List.map_map]
    rfl
  · rw [deriveCharges, hfilter, List.length_map, ← hfst, List.length_map]

end ETL

namespace ETL

/-- Counterexample to claim C8 as stated: a header lacking the mandatory
`created_at` column — which is also named in `parse_dates` — makes
`pd.read_csv` raise `ValueError` before the column sanity check, so the
driver crashes with a traceback and never reports the missing-column
list. -/
theorem claim_C8_missing_columns_counterexample :
    ("created_at" ∈ MUST_HAVE_COLUMNS ∧ "created_at" ∉ wDateCSV.columns) ∧
    (mainModel (some wDateCSV) emptyDB .append).1 = .crashed ∧
    (mainModel (some wDateCSV) emptyDB .append).1 ≠
      .missingColumns
        (MUST_HAVE_COLUMNS.filter fun c => decide (c ∉ wDateCSV.columns)) :=
  ⟨by decide, rfl, by decide⟩

/-- Claim C8, amended.  For every input whose header contains the two date
columns `created_at` and `paid_at` (so `read_csv` succeeds) but lacks at
least one of the remaining five mandatory columns, the driver reports
exactly the list of missing column names, exits with code 1, and performs
zero database writes: the warehouse row state is unchanged.  (A header
lacking a date column instead crashes inside `read_csv` with an uncaught
`ValueError`, as the counterexample shows.) -/
theorem claim_C8_missing_columns (csv : CSV) (db : DB) (mode : Mode)
    (hdates : "created_at" ∈ csv.columns ∧ "paid_at" ∈ csv.columns)
    (h : ∃ c ∈ MUST_HAVE_COLUMNS, c ∉ csv.columns) :
    (mainModel (some csv) db mode).1 =
      .missingColumns
        (MUST_HAVE_COLUMNS.filter fun c => decide (c ∉ csv.columns)) ∧
    exitCode (mainModel (some csv) db mode).1 = 1 ∧
    (mainModel (some csv) db mode).2 = db := by
  obtain ⟨c, hc, hnotin⟩ := h
  have hmem : c ∈ MUST_HAVE_COLUMNS.filter fun c => decide (c ∉ csv.columns) :=
    List.mem_filter.mpr ⟨hc, by simpa using hnotin⟩
  simp only [mainModel]
  rw [if_neg (by push_neg; exact hdates)]
  cases hf : MUST_HAVE_COLUMNS.filter fun c => decide (c ∉ csv.columns) with
  | nil => rw [hf] at hmem; cases hmem
  | cons a as => exact ⟨rfl, rfl, rfl⟩

/-- Witness for C8: a concrete CSV with both date columns but lacking
`status` makes the driver report `["status"]`, exit 1, and write nothing
to an empty warehouse. -/
theorem claim_C8_missing_columns_witness :
    (("created_at" ∈ wBadCSV.columns ∧ "paid_at" ∈ wBadCSV.columns) ∧
      ∃ c ∈ MUST_HAVE_COLUMNS, c ∉ wBadCSV.columns) ∧
    ((mainModel (some wBadCSV) emptyDB .append).1 =
        .missingColumns
          (MUST_HAVE_COLUMNS.filter fun c => decide (c ∉ wBadCSV.columns)) ∧
      exitCode (mainModel (some wBadCSV) emptyDB .append).1 = 1 ∧
      (mainModel (some wBadCSV) emptyDB .append).2 = emptyDB) :=
  ⟨⟨by decide, by decide⟩,
    claim_C8_missing_columns wBadCSV emptyDB .append (by decide) (by decide)⟩

/-- Witness for C6: on the one-row batch `[wRow]` the pipeline succeeds and
the derived charge's `company_id` appears among the derived company ids. -/
theorem claim_C6_referential_integrity_witness :
    transformPipeline [wRow] = .ok ([wCompany], [wCharge]) ∧
    wCharge ∈ [wCharge] ∧
    wCharge.company_id ∈ [wCompany].map Company.id :=
  ⟨rfl, List.mem_singleton.mpr rfl,
    claim_C6_referential_integrity [wRow] [wCompany] [wCharge] rfl wCharge
      (List.mem_singleton.mpr rfl)⟩

/-- Witness for C7: on the one-row batch `[wRow]` the derived company ids
are pairwise distinct and `wCompany` is the first projected pair with its
id. -/
theorem claim_C7_company_dedup_first_wins_witness :
    transformPipeline [wRow] = .ok ([wCompany], [wCharge]) ∧
    wCompany ∈ [wCompany] ∧
    (([wCompany].map Company.id).Nodup ∧
      (companyPairs (survivors [wRow])).find?
          (fun p => decide (p.1 = wCompany.id)) =
        some (wCompany.id, wCompany.company_name)) :=
  ⟨rfl, List.mem_singleton.mpr rfl,
    claim_C7_company_dedup_first_wins [wRow] [wCompany] [wCharge] rfl wCompany
      (List.mem_singleton.mpr rfl)⟩

/-- Witness for C9: on the one-row batch `[wRow]` the derived charges carry
exactly the ids of the surviving rows and have the same length. -/
theorem claim_C9_defensive_recheck_vacuous_witness :
    transformPipeline [wRow] = .ok ([wCompany], [wCharge]) ∧
    ([wCharge].map Charge.id = (survivors [wRow]).map Row.id ∧
      [wCharge].length = (survivors [wRow]).length) :=
  ⟨rfl, claim_C9_defensive_recheck_vacuous [wRow] [wCompany] [wCharge] rfl⟩

end ETL

namespace MissingNumber

/-- Claim C10.  In the standalone puzzle, extracting any integer `n` with
`1 ≤ n ≤ 100` and then calling `find_missing` returns exactly `n` (indeed
`1 ^^^ 2 ^^^ ... ^^^ 100 = 100` and `100 ^^^ (100 ^^^ n) = n`);
`find_missing` before any extraction raises; `extract` rejects non-integers
and any integer `m` outside `1..100`. -/
theorem claim_C10_missing_number (n : Int) (h1 : 1 ≤ n) (h2 : n ≤ 100)
    (m : Int) (hm : m < 1 ∨ 100 < m) :
    (NumberSet100.init.extract (.int n) =
        .ok { N := 100, extracted := some n.toNat } ∧
      NumberSet100.find_missing { N := 100, extracted := some n.toNat } =
        .ok n.toNat ∧
      (n.toNat : Int) = n) ∧
    NumberSet100.init.find_missing =
      .error "Primero debes extraer un número con extract(n)." ∧
    NumberSet100.init.extract .other = .error "El valor debe ser un entero." ∧
    NumberSet100.init.extract (.int m) =
      .error "El número debe estar entre 1 y 100." ∧
    (List.range' 1 100).foldl (fun a i => a ^^^ i) 0 = 100 := by
  refine ⟨⟨?_, ?_, ?_⟩, rfl, rfl, ?_, by decide⟩
  · simp only [NumberSet100.extract, NumberSet100.init]
    rw [if_neg]
    push_neg
    refine ⟨h1, ?_⟩
    simpa using h2
  · simp only [NumberSet100.find_missing]
    rw [← Nat.xor_assoc, Nat.xor_self, Nat.zero_xor]
  · exact Int.toNat_of_nonneg (by linarith)
  · simp only [NumberSet100.extract, NumberSet100.init]
    rw [if_pos]
    simpa using hm

/-- Witness for C10: extracting 37 recovers 37, with 0 as the rejected
out-of-range value. -/
theorem claim_C10_missing_number_witness :
    (1 ≤ (37 : Int) ∧ (37 : Int) ≤ 100 ∧ ((0 : Int) < 1 ∨ 100 < (0 : Int))) ∧
    ((NumberSet100.init.extract (.int 37) =
        .ok { N := 100, extracted := some (37 : Int).toNat } ∧
      NumberSet100.find_missing { N := 100, extracted := some (37 : Int).toNat } =
        .ok (37 : Int).toNat ∧
      ((37 : Int).toNat : Int) = 37) ∧
    NumberSet100.init.find_missing =
      .error "Primero debes extraer un número con extract(n)." ∧
    NumberSet100.init.extract .other = .error "El valor debe ser un entero." ∧
    NumberSet100.init.extract (.int 0) =
      .error "El número debe estar entre 1 y 100." ∧
    (List.range' 1 100).foldl (fun a i => a ^^^ i) 0 = 100) :=
  ⟨⟨by decide, by decide, by decide⟩,
    claim_C10_missing_number 37 (by decide) (by decide) 0 (by decide)⟩

end MissingNumber
